import Mathlib

/-!
Verification of the multi-agent scraper core (src/multi_agent_scraper) against its
natural-language specification.

The embedding is shallow and executable:

* Pure result-processing code (utils.py: remove_duplicates, filter_results; the
  post-processing loop at the end of Scraper.run in scraper.py) is translated to
  Lean functions on lists.
* The per-attempt network outcome of Agent.search (agent.py) is abstracted as an
  oracle value of type FetchResult: either an HTTP response carrying a status code
  and opaque content, or a transport error (any exception raised by the HTTP layer,
  including timeouts).  Exception propagation in Python becomes the Except monad:
  Agent.search returns .error exactly when the Python function raises.
* The retry loop Agent.search_with_retry is given an oracle assigning an outcome to
  every attempt index, and returns a trace recording the final result, the number of
  attempts performed, and the list of backoff sleep durations, in order.
* Scraper.run (scraper.py) is modelled denotationally: the orchestration enqueues
  every query, the agent pool drains the queue writing each dequeued query's
  search_with_retry result into the shared results dict, and after the join the
  post-processing loop rewrites every dict entry in place.  The final mapping is
  independent of the scheduling of agents because the dict is keyed by query and
  each query's processing depends only on that query's own fetch outcomes, so the
  sequential fold over the input query list is a faithful denotation of the
  concurrent drain.  The Python dict is modelled as an insertion-ordered
  association list with in-place value update (dictSet).
* The exceptional control flow of one iteration of Agent.work (agent.py) after a
  successful dequeue is embedded as a function from the outcome of the awaited
  processing step (normal return, CancelledError, other exception) to its effects
  (what is stored, how many times task_done is called), read off the try/except
  structure of the source.
-/

namespace MultiAgentScraper

/-- One structured search result as built by parse_search_results in utils.py:
a record with title, url, snippet and domain fields. -/
structure SearchResult where
  title : String
  url : String
  snippet : String
  domain : String
deriving DecidableEq, Repr

/-! ## Configuration constants (src/multi_agent_scraper/config.py) -/

/-- NUM_AGENTS from config.py. -/
def NUM_AGENTS : Nat := 5

/-- MAX_RESULTS_PER_QUERY from config.py. -/
def MAX_RESULTS_PER_QUERY : Nat := 10

/-- REQUEST_DELAY from config.py (seconds). -/
def REQUEST_DELAY : Nat := 2

/-- REQUEST_TIMEOUT from config.py (seconds). -/
def REQUEST_TIMEOUT : Nat := 15

/-- MAX_RETRIES from config.py. -/
def MAX_RETRIES : Nat := 3

/-- BLACKLIST_DOMAINS from config.py. -/
def BLACKLIST_DOMAINS : List String := ["example.com", "spam-site.com"]

/-! ## utils.py -/

/-- Loop body of remove_duplicates in utils.py: walk the list keeping a set of seen
urls (modelled as a list queried only by membership), appending a result exactly
when its url has not been seen, and adding that url to the seen set. -/
def remove_duplicates_go (seen : List String) : List SearchResult → List SearchResult
  | [] => []
  | r :: rs =>
    if r.url ∈ seen then remove_duplicates_go seen rs
    else r :: remove_duplicates_go (r.url :: seen) rs

/-- remove_duplicates from utils.py: drop every result whose url already occurred
earlier in the list, keeping first occurrences in order. -/
def remove_duplicates (results : List SearchResult) : List SearchResult :=
  remove_duplicates_go [] results

/-- filter_results from utils.py.  The Python parameter blacklist_domains defaults to
None; the guard "if not blacklist_domains" returns the input unchanged when the
argument is None or the empty list, and otherwise keeps exactly the results whose
domain is not in the blacklist. -/
def filter_results (results : List SearchResult) (blacklist_domains : Option (List String)) :
    List SearchResult :=
  match blacklist_domains with
  | none => results
  | some bl =>
    if bl = [] then results
    else results.filter (fun r => decide (r.domain ∉ bl))

/-! ## agent.py: fetch outcomes, search, and the retry loop -/

/-- Observable outcome of one fetch attempt inside Agent.search: either an HTTP
response with a status code and (opaque) body content, or a transport error, i.e.
any exception raised by the HTTP layer or timeout before a response is available. -/
inductive FetchResult (α : Type) where
  | response (status : Nat) (content : α)
  | transportError
deriving DecidableEq, Repr

/-- Agent.search from agent.py, as a function of the attempt's fetch outcome.
On a response with status 200 it parses the body and returns the parsed results;
on any other status it logs a warning and returns the empty list (a normal return,
not an exception); a transport error propagates as an exception (.error). -/
def Agent.search (parse : α → List SearchResult) :
    FetchResult α → Except Unit (List SearchResult)
  | .response status content =>
    if status = 200 then .ok (parse content) else .ok []
  | .transportError => .error ()

/-- Trace of one Agent.search_with_retry call: the returned result list, the number
of attempts actually performed, and the backoff sleep durations in order. -/
structure RetryTrace where
  result : List SearchResult
  attempts : Nat
  backoffs : List Nat
deriving DecidableEq, Repr

/-- Loop of Agent.search_with_retry in agent.py, with explicit fuel mirroring
range(MAX_RETRIES): at each attempt, if search returns normally its value is the
result; if it raises, sleep 2 ^ attempt and continue; when the fuel is exhausted
return the empty list. -/
def search_with_retry_go (parse : α → List SearchResult) (outcomes : Nat → FetchResult α)
    (attempt : Nat) : Nat → RetryTrace
  | 0 => ⟨[], attempt, []⟩
  | fuel + 1 =>
    match Agent.search parse (outcomes attempt) with
    | .ok res => ⟨res, attempt + 1, []⟩
    | .error _ =>
      let t := search_with_retry_go parse outcomes (attempt + 1) fuel
      ⟨t.result, t.attempts, 2 ^ attempt :: t.backoffs⟩

/-- Agent.search_with_retry from agent.py: run the attempt loop for MAX_RETRIES
attempts starting at attempt 0. -/
def Agent.search_with_retry (parse : α → List SearchResult)
    (outcomes : Nat → FetchResult α) : RetryTrace :=
  search_with_retry_go parse outcomes 0 MAX_RETRIES

/-! ## agent.py: one iteration of the Agent.work loop -/

/-- Outcome of the awaited processing step (search_with_retry and the results-dict
assignment) inside one iteration of Agent.work, after task_queue.get succeeded:
either it completes normally with a result list, or asyncio.CancelledError is
raised during one of its awaits, or some other exception is raised. -/
inductive ProcessOutcome where
  | completed (res : List SearchResult)
  | cancelled
  | raised
deriving DecidableEq, Repr

/-- Effects of one Agent.work iteration on the dequeued item: what was stored in
the results dict, and how many times task_done was called. -/
structure IterationEffect where
  stored : Option (List SearchResult)
  taskDoneCalls : Nat
deriving DecidableEq, Repr

/-- One iteration of Agent.work from agent.py after a successful dequeue, read off
the try/except structure of the source: on normal completion the try block stores
the result and calls task_done once; on asyncio.CancelledError the handler breaks
out of the loop without calling task_done; on any other exception the handler logs
and calls task_done once without storing.  task_done is not called from a finally
block. -/
def workIteration : ProcessOutcome → IterationEffect
  | .completed res => ⟨some res, 1⟩
  | .cancelled => ⟨none, 0⟩
  | .raised => ⟨none, 1⟩

/-! ## scraper.py: the Scraper and its run method -/

/-- Scraper state from Scraper.__init__ in scraper.py: the agent count, the
max_results limit and the results dict.  The task queue and the results dict are
created here, in the constructor, once per Scraper instance. -/
structure Scraper where
  num_agents : Nat
  max_results : Nat
  results : List (String × List SearchResult)
deriving DecidableEq, Repr

/-- Python dict assignment d[k] = v on an insertion-ordered association list: if
the key is present its value is updated in place (position preserved), otherwise
the pair is appended at the end. -/
def dictSet : List (String × List SearchResult) → String → List SearchResult →
    List (String × List SearchResult)
  | [], k, v => [(k, v)]
  | p :: d, k, v => if p.1 = k then (p.1, v) :: d else p :: dictSet d k v

/-- Per-query post-processing from the loop at the end of Scraper.run in
scraper.py: filter_results with the blacklist, then remove_duplicates, then
truncate to max_results by slicing. -/
def postProcess (blacklist : List String) (max_results : Nat)
    (results : List SearchResult) : List SearchResult :=
  (remove_duplicates (filter_results results (some blacklist))).take max_results

/-- Result recorded for one dequeued query: the result field of the
search_with_retry trace, with the query's per-attempt fetch outcomes supplied by
the oracle. -/
def Scraper.processQuery (parse : α → List SearchResult)
    (oracle : String → Nat → FetchResult α) (q : String) : List SearchResult :=
  (Agent.search_with_retry parse (oracle q)).result

/-- Scraper.run from scraper.py, denotationally: every input query is enqueued and
eventually dequeued by some agent, which writes that query's search_with_retry
result into the shared results dict; after the queue joins, the post-processing
loop rewrites every dict entry in place and self.results is returned.  The fold
starts from the Scraper's existing results dict, because the dict is created in
__init__, not in run. -/
def Scraper.run (parse : α → List SearchResult) (oracle : String → Nat → FetchResult α)
    (blacklist : List String) (s : Scraper) (queries : List String) :
    List (String × List SearchResult) × Scraper :=
  let afterWork :=
    queries.foldl (fun d q => dictSet d q (Scraper.processQuery parse oracle q)) s.results
  let final := afterWork.map (fun p => (p.1, postProcess blacklist s.max_results p.2))
  (final, { s with results := final })

/-! ## Specification-level definitions -/

/-- Post-processing pipeline in the order the specification states it (deduplicate
first, then filter by blacklist, then truncate); written from the spec's words for
comparison with the order the code actually uses. -/
def claimedPostProcess (blacklist : List String) (max_results : Nat)
    (results : List SearchResult) : List SearchResult :=
  (filter_results (remove_duplicates results) (some blacklist)).take max_results

/-- Specification-level blacklist filter: keep exactly the results whose domain is
not in the blacklist (no special case for the empty blacklist). -/
def specFilter (blacklist : List String) (l : List SearchResult) : List SearchResult :=
  l.filter (fun r => decide (r.domain ∉ blacklist))

/-- Specification-level first-occurrence deduplication by url: keep the head and
recursively deduplicate the tail with all later occurrences of the head's url
removed. -/
def specDedup : List SearchResult → List SearchResult
  | [] => []
  | r :: rs => r :: specDedup (rs.filter (fun x => decide (x.url ≠ r.url)))
termination_by l => l.length
decreasing_by
  simp only [List.length_cons]
  exact Nat.lt_succ_of_le (List.length_filter_le _ _)

/-- First-occurrence deduplication for plain strings, used to describe the key set
of the results dict produced by folding dictSet over a query list. -/
def newKeys (seen : List String) : List String → List String
  | [] => []
  | q :: qs => if q ∈ seen then newKeys seen qs else q :: newKeys (q :: seen) qs

/-- Key list of an association-list dict, in insertion order. -/
def keys (d : List (String × List SearchResult)) : List String :=
  d.map Prod.fst

/-! ## Concrete values used in counterexamples and witnesses -/

/-- Sample non-blacklisted result. -/
def exResult : SearchResult := ⟨"t", "http://x.com/1", "s", "x.com"⟩

/-- Second sample non-blacklisted result, distinct url. -/
def exResult2 : SearchResult := ⟨"t2", "http://x.com/2", "s2", "x.com"⟩

/-- Third sample non-blacklisted result, distinct url. -/
def exResult3 : SearchResult := ⟨"t3", "http://y.com/3", "s3", "y.com"⟩

/-- Result with a blacklisted domain sharing its url with ceDup2. -/
def ceDup1 : SearchResult := ⟨"a", "http://u", "", "example.com"⟩

/-- Result with a non-blacklisted domain sharing its url with ceDup1. -/
def ceDup2 : SearchResult := ⟨"b", "http://u", "", "x.com"⟩

/-- Attempt oracle whose first attempt yields a non-200 status and whose second
would yield a 200 response. -/
def ceOutcomes : Nat → FetchResult Unit :=
  fun k => if k = 0 then .response 500 () else .response 200 ()

/-- Parser used with ceOutcomes: any successfully fetched body parses to one
result. -/
def ceParse : Unit → List SearchResult := fun _ => [exResult]

/-! ## Lemmas about filtering and deduplication -/

theorem filter_all {α : Type} (p : α → Bool) :
    ∀ l : List α, (∀ a ∈ l, p a = true) → l.filter p = l
  | [], _ => rfl
  | a :: l, h => by
    have ha := h a (List.mem_cons_self a l)
    simp [List.filter, ha, filter_all p l fun x hx => h x (List.mem_cons_of_mem a hx)]

theorem filter_results_some_eq (l : List SearchResult) (bl : List String) :
    filter_results l (some bl) = specFilter bl l := by
  by_cases h : bl = []
  · subst h
    simp only [filter_results, if_pos rfl, specFilter]
    exact (filter_all _ l (by intro a _; simp)).symm
  · simp [filter_results, h, specFilter]

theorem mem_specFilter {r : SearchResult} {bl : List String} {l : List SearchResult}
    (h : r ∈ specFilter bl l) : r ∈ l ∧ r.domain ∉ bl := by
  have := List.mem_filter.mp h
  simpa using this

theorem specFilter_eq_self {bl : List String} {l : List SearchResult}
    (h : ∀ r ∈ l, r.domain ∉ bl) : specFilter bl l = l :=
  filter_all _ l (by intro a ha; simpa using h a ha)

theorem mem_remove_duplicates_go {x : SearchResult} :
    ∀ {seen : List String} {l : List SearchResult}, x ∈ remove_duplicates_go seen l → x ∈ l := by
  intro seen l
  induction l generalizing seen with
  | nil => simp [remove_duplicates_go]
  | cons r rs ih =>
    by_cases h : r.url ∈ seen
    · intro hx
      simp only [remove_duplicates_go, if_pos h] at hx
      exact List.mem_cons_of_mem r (ih hx)
    · intro hx
      simp only [remove_duplicates_go, if_neg h, List.mem_cons] at hx
      rcases hx with hx | hx
      · exact hx ▸ List.mem_cons_self r rs
      · exact List.mem_cons_of_mem r (ih hx)

theorem remove_duplicates_go_url_not_seen {x : SearchResult} :
    ∀ {seen : List String} {l : List SearchResult},
      x ∈ remove_duplicates_go seen l → x.url ∉ seen := by
  intro seen l
  induction l generalizing seen with
  | nil => simp [remove_duplicates_go]
  | cons r rs ih =>
    by_cases h : r.url ∈ seen
    · intro hx
      simp only [remove_duplicates_go, if_pos h] at hx
      exact ih hx
    · intro hx
      simp only [remove_duplicates_go, if_neg h, List.mem_cons] at hx
      rcases hx with hx | hx
      · exact hx ▸ h
      · exact fun hs => ih hx (List.mem_cons_of_mem _ hs)

theorem remove_duplicates_go_pairwise :
    ∀ (seen : List String) (l : List SearchResult),
      (remove_duplicates_go seen l).Pairwise (fun a b => a.url ≠ b.url) := by
  intro seen l
  induction l generalizing seen with
  | nil => simp [remove_duplicates_go]
  | cons r rs ih =>
    by_cases h : r.url ∈ seen
    · simpa [remove_duplicates_go, if_pos h] using ih seen
    · simp only [remove_duplicates_go, if_neg h]
      refine List.Pairwise.cons ?_ (ih (r.url :: seen))
      intro y hy hcon
      exact remove_duplicates_go_url_not_seen hy (hcon ▸ List.mem_cons_self _ _)

theorem remove_duplicates_pairwise (l : List SearchResult) :
    (remove_duplicates l).Pairwise (fun a b => a.url ≠ b.url) :=
  remove_duplicates_go_pairwise [] l

theorem remove_duplicates_go_eq_self :
    ∀ {seen : List String} {l : List SearchResult},
      l.Pairwise (fun a b => a.url ≠ b.url) → (∀ x ∈ l, x.url ∉ seen) →
      remove_duplicates_go seen l = l := by
  intro seen l
  induction l generalizing seen with
  | nil => intro _ _; rfl
  | cons r rs ih =>
    intro hpw hseen
    have hr : r.url ∉ seen := hseen r (List.mem_cons_self r rs)
    simp only [remove_duplicates_go, if_neg hr]
    congr 1
    refine ih (List.Pairwise.of_cons hpw) ?_
    intro x hx
    have hx1 : r.url ≠ x.url := (List.pairwise_cons.mp hpw).1 x hx
    have hx2 : x.url ∉ seen := hseen x (List.mem_cons_of_mem r hx)
    have hx3 : x.url ≠ r.url := fun hh => hx1 hh.symm
    simp [List.mem_cons, hx2, hx3]

theorem remove_duplicates_eq_self {l : List SearchResult}
    (h : l.Pairwise (fun a b => a.url ≠ b.url)) : remove_duplicates l = l :=
  remove_duplicates_go_eq_self h (by simp)

theorem remove_duplicates_go_eq_specDedup :
    ∀ (l : List SearchResult) (seen : List String),
      remove_duplicates_go seen l = specDedup (l.filter (fun r => decide (r.url ∉ seen))) := by
  intro l
  induction l with
  | nil => intro seen; simp [remove_duplicates_go, specDedup]
  | cons r rs ih =>
    intro seen
    by_cases h : r.url ∈ seen
    · simp only [remove_duplicates_go, if_pos h]
      rw [ih seen]
      congr 1
      simp [List.filter_cons, h]
    · have hkeep : decide (r.url ∉ seen) = true := by simpa using h
      simp only [remove_duplicates_go, if_neg h, List.filter_cons, hkeep, if_true]
      simp only [specDedup]
      congr 1
      rw [ih (r.url :: seen), List.filter_filter]
      have hfun : (fun x : SearchResult => decide (x.url ∉ r.url :: seen)) =
          fun x : SearchResult => decide (x.url ≠ r.url) && decide (x.url ∉ seen) := by
        funext x
        by_cases hx : x.url = r.url
        · simp [hx]
        · by_cases hs : x.url ∈ seen <;> simp [hx, hs]
      rw [hfun]

theorem remove_duplicates_eq_specDedup (l : List SearchResult) :
    remove_duplicates l = specDedup l := by
  rw [remove_duplicates, remove_duplicates_go_eq_specDedup l []]
  congr 1
  exact filter_all _ l (by intro a _; simp)

/-! ## Lemmas about postProcess -/

theorem mem_postProcess {r : SearchResult} {bl : List String} {m : Nat}
    {l : List SearchResult} (h : r ∈ postProcess bl m l) : r.domain ∉ bl := by
  have h1 : r ∈ remove_duplicates (filter_results l (some bl)) :=
    List.take_subset m _ h
  have h2 : r ∈ filter_results l (some bl) := mem_remove_duplicates_go h1
  rw [filter_results_some_eq] at h2
  exact (mem_specFilter h2).2

theorem postProcess_pairwise (bl : List String) (m : Nat) (l : List SearchResult) :
    (postProcess bl m l).Pairwise (fun a b => a.url ≠ b.url) :=
  (remove_duplicates_pairwise _).sublist (List.take_sublist m _)

theorem postProcess_length_le (bl : List String) (m : Nat) (l : List SearchResult) :
    (postProcess bl m l).length ≤ m := by
  simp [postProcess, List.length_take]

theorem postProcess_length_eq {bl : List String} {m : Nat} {l : List SearchResult}
    (h : m ≤ (remove_duplicates (filter_results l (some bl))).length) :
    (postProcess bl m l).length = m := by
  simp [postProcess, List.length_take]
  omega

theorem postProcess_idem (bl : List String) (m : Nat) (l : List SearchResult) :
    postProcess bl m (postProcess bl m l) = postProcess bl m l := by
  have hdom : ∀ r ∈ postProcess bl m l, r.domain ∉ bl := fun r hr => mem_postProcess hr
  have hpw := postProcess_pairwise bl m l
  conv_lhs => rw [postProcess, filter_results_some_eq, specFilter_eq_self hdom,
    remove_duplicates_eq_self hpw]
  simp [postProcess, List.take_take]

/-! ## Lemmas about the retry loop -/

theorem search_with_retry_go_fail {parse : α → List SearchResult}
    {outcomes : Nat → FetchResult α} {a : Nat}
    (h : outcomes a = FetchResult.transportError) (fuel : Nat) :
    search_with_retry_go parse outcomes a (fuel + 1) =
      ⟨(search_with_retry_go parse outcomes (a + 1) fuel).result,
       (search_with_retry_go parse outcomes (a + 1) fuel).attempts,
       2 ^ a :: (search_with_retry_go parse outcomes (a + 1) fuel).backoffs⟩ := by
  simp [search_with_retry_go, h, Agent.search]

theorem search_with_retry_go_ok {parse : α → List SearchResult}
    {outcomes : Nat → FetchResult α} {a : Nat} {res : List SearchResult}
    (h : Agent.search parse (outcomes a) = .ok res) (fuel : Nat) :
    search_with_retry_go parse outcomes a (fuel + 1) = ⟨res, a + 1, []⟩ := by
  simp [search_with_retry_go, h]

theorem search_with_retry_go_attempts_ge (parse : α → List SearchResult)
    (outcomes : Nat → FetchResult α) :
    ∀ (fuel a : Nat), a ≤ (search_with_retry_go parse outcomes a fuel).attempts := by
  intro fuel
  induction fuel with
  | zero => intro a; simp [search_with_retry_go]
  | succ f ih =>
    intro a
    cases hs : Agent.search parse (outcomes a) with
    | ok res => simp [search_with_retry_go_ok hs]
    | error e =>
      have h : outcomes a = FetchResult.transportError := by
        cases ho : outcomes a with
        | response st c =>
          rw [ho] at hs
          by_cases h200 : st = 200 <;> simp [Agent.search, h200] at hs
        | transportError => rfl
      rw [search_with_retry_go_fail h f]
      exact Nat.le_trans (Nat.le_succ a) (ih (a + 1))

theorem search_with_retry_go_attempts_progress (parse : α → List SearchResult)
    (outcomes : Nat → FetchResult α) :
    ∀ (j a fuel : Nat), (∀ i, i < j → outcomes (a + i) = FetchResult.transportError) →
      j < fuel → a + j + 1 ≤ (search_with_retry_go parse outcomes a fuel).attempts := by
  intro j
  induction j with
  | zero =>
    intro a fuel _ hfuel
    obtain ⟨f, rfl⟩ : ∃ f, fuel = f + 1 := ⟨fuel - 1, by omega⟩
    cases hs : Agent.search parse (outcomes a) with
    | ok res => simp [search_with_retry_go_ok hs]
    | error e =>
      have h : outcomes a = FetchResult.transportError := by
        cases ho : outcomes a with
        | response st c =>
          rw [ho] at hs
          by_cases h200 : st = 200 <;> simp [Agent.search, h200] at hs
        | transportError => rfl
      rw [search_with_retry_go_fail h f]
      simpa using search_with_retry_go_attempts_ge parse outcomes f (a + 1)
  | succ j ih =>
    intro a fuel hfail hfuel
    obtain ⟨f, rfl⟩ : ∃ f, fuel = f + 1 := ⟨fuel - 1, by omega⟩
    have h0 : outcomes a = FetchResult.transportError := by
      simpa using hfail 0 (Nat.succ_pos j)
    rw [search_with_retry_go_fail h0 f]
    have hrec := ih (a + 1) f (fun i hi => by
      have := hfail (i + 1) (by omega)
      simpa [Nat.add_assoc, Nat.add_comm 1 i] using this) (by omega)
    simp only []
    omega

/-! ## Lemmas about the results dict -/

theorem dictSet_keys (d : List (String × List SearchResult)) (k : String)
    (v : List SearchResult) :
    keys (dictSet d k v) = if k ∈ keys d then keys d else keys d ++ [k] := by
  induction d with
  | nil => simp [dictSet, keys]
  | cons p d ih =>
    by_cases hp : p.1 = k
    · simp [dictSet, hp, keys]
    · have hk : ¬k = p.1 := fun hh => hp hh.symm
      simp only [dictSet, if_neg hp, keys, List.map_cons]
      rw [show List.map Prod.fst (dictSet d k v) = keys (dictSet d k v) from rfl, ih]
      by_cases hd : k ∈ List.map Prod.fst d
      · simp [keys, List.mem_cons, hk, hd]
      · simp [keys, List.mem_cons, hk, hd]

theorem newKeys_congr :
    ∀ (qs : List String) (s1 s2 : List String), (∀ x, x ∈ s1 ↔ x ∈ s2) →
      newKeys s1 qs = newKeys s2 qs := by
  intro qs
  induction qs with
  | nil => intro s1 s2 _; rfl
  | cons q qs ih =>
    intro s1 s2 h
    by_cases hq : q ∈ s1
    · have hq2 : q ∈ s2 := (h q).mp hq
      simp only [newKeys, if_pos hq, if_pos hq2]
      exact ih s1 s2 h
    · have hq2 : q ∉ s2 := fun hh => hq ((h q).mpr hh)
      simp only [newKeys, if_neg hq, if_neg hq2]
      congr 1
      refine ih _ _ ?_
      intro x
      simp [List.mem_cons, h x]

theorem foldl_dictSet_keys (g : String → List SearchResult) :
    ∀ (qs : List String) (d0 : List (String × List SearchResult)),
      keys (qs.foldl (fun d q => dictSet d q (g q)) d0) =
        keys d0 ++ newKeys (keys d0) qs := by
  intro qs
  induction qs with
  | nil => intro d0; simp [newKeys]
  | cons q qs ih =>
    intro d0
    simp only [List.foldl_cons]
    rw [ih (dictSet d0 q (g q)), dictSet_keys]
    by_cases hq : q ∈ keys d0
    · simp [newKeys, hq]
    · simp only [if_neg hq, newKeys, if_neg hq]
      rw [newKeys_congr qs (keys d0 ++ [q]) (q :: keys d0) (by intro x; simp [or_comm])]
      simp

theorem newKeys_of_nodup :
    ∀ (qs seen : List String), qs.Nodup → (∀ q ∈ qs, q ∉ seen) → newKeys seen qs = qs := by
  intro qs
  induction qs with
  | nil => intro seen _ _; rfl
  | cons q qs ih =>
    intro seen hnd h
    have hq : q ∉ seen := h q (List.mem_cons_self q qs)
    simp only [newKeys, if_neg hq]
    congr 1
    refine ih (q :: seen) (List.Nodup.of_cons hnd) ?_
    intro x hx
    have hxq : x ≠ q := fun hh => (List.nodup_cons.mp hnd).1 (hh ▸ hx)
    have hxs : x ∉ seen := h x (List.mem_cons_of_mem q hx)
    simp [List.mem_cons, hxq, hxs]

theorem mem_seen_or_newKeys :
    ∀ (qs seen : List String) (q : String), q ∈ qs → q ∈ seen ∨ q ∈ newKeys seen qs := by
  intro qs
  induction qs with
  | nil => intro seen q hq; simp at hq
  | cons x xs ih =>
    intro seen q hq
    by_cases hx : x ∈ seen
    · simp only [newKeys, if_pos hx]
      rcases List.mem_cons.mp hq with rfl | hq'
      · exact Or.inl hx
      · exact ih seen q hq'
    · simp only [newKeys, if_neg hx]
      rcases List.mem_cons.mp hq with rfl | hq'
      · exact Or.inr (List.mem_cons_self q _)
      · rcases ih (x :: seen) q hq' with h | h
        · rcases List.mem_cons.mp h with rfl | h'
          · exact Or.inr (List.mem_cons_self q _)
          · exact Or.inl h'
        · exact Or.inr (List.mem_cons_of_mem x h)

theorem keys_map_postProcess (bl : List String) (m : Nat)
    (d : List (String × List SearchResult)) :
    keys (d.map (fun p => (p.1, postProcess bl m p.2))) = keys d := by
  simp [keys, List.map_map]

/-- The values of the final mapping returned by Scraper.run are exactly the
postProcess images of the accumulated per-query result lists. -/
theorem run_value_eq_postProcess {parse : α → List SearchResult}
    {oracle : String → Nat → FetchResult α} {bl : List String} {s : Scraper}
    {queries : List String} {q : String} {l : List SearchResult}
    (h : (q, l) ∈ (Scraper.run parse oracle bl s queries).1) :
    ∃ raw, l = postProcess bl s.max_results raw := by
  simp only [Scraper.run, List.mem_map] at h
  obtain ⟨p, hmem, hp⟩ := h
  refine ⟨p.2, ?_⟩
  have hsnd := congrArg Prod.snd hp
  simpa using hsnd.symm

/-! ## Claim theorems -/

/-- C1 counterexample: the post-processing before Scraper.run returns does not
deduplicate first and filter second.  With the configured blacklist and the
accumulated list [ceDup1, ceDup2] (same url, the first with a blacklisted domain),
run returns the non-blacklisted entry, while the claimed pipeline
truncate(filter(dedup(input))) returns the empty list, because dedup keeps the
blacklisted first occurrence and filter then removes it. -/
theorem C1_counterexample :
    Scraper.processQuery (fun _ : Unit => [ceDup1, ceDup2])
      (fun _ _ => FetchResult.response 200 ()) "q" = [ceDup1, ceDup2] ∧
    (Scraper.run (fun _ : Unit => [ceDup1, ceDup2]) (fun _ _ => FetchResult.response 200 ())
        BLACKLIST_DOMAINS ⟨5, 10, []⟩ ["q"]).1 = [("q", [ceDup2])] ∧
    claimedPostProcess BLACKLIST_DOMAINS 10 [ceDup1, ceDup2] = [] ∧
    (Scraper.run (fun _ : Unit => [ceDup1, ceDup2]) (fun _ _ => FetchResult.response 200 ())
        BLACKLIST_DOMAINS ⟨5, 10, []⟩ ["q"]).1 ≠
      [("q", claimedPostProcess BLACKLIST_DOMAINS 10 [ceDup1, ceDup2])] := by
  refine ⟨rfl, rfl, rfl, by decide⟩

/-- C1 (amended): the post-processing applied before Scraper.run returns performs,
in this order: first remove every result whose domain is in the Blacklist, then
deduplicate by url keeping the first occurrence (earliest insertion order), then
truncate to at most max_results entries preserving order; for every accumulated
list the final list equals truncate(dedup(filter(input))), here stated with
specification-level filter and first-occurrence dedup functions. -/
theorem C1_theorem (parse : α → List SearchResult) (oracle : String → Nat → FetchResult α)
    (bl : List String) (s : Scraper) (queries : List String) :
    (Scraper.run parse oracle bl s queries).1 =
      (queries.foldl (fun d q => dictSet d q (Scraper.processQuery parse oracle q))
          s.results).map
        (fun p => (p.1, (specDedup (specFilter bl p.2)).take s.max_results)) := by
  have hfun : (fun p : String × List SearchResult =>
      (p.1, postProcess bl s.max_results p.2)) =
      fun p => (p.1, (specDedup (specFilter bl p.2)).take s.max_results) := by
    funext p
    simp [postProcess, filter_results_some_eq, remove_duplicates_eq_specDedup]
  simp only [Scraper.run]
  rw [hfun]

/-- C2 counterexample: a non-200 status on attempt 0 (with MAX_RETRIES = 3, so a
retry would be allowed, and with a retry that would have succeeded) is not
followed by another attempt: search returns the empty list normally, and
search_with_retry returns it immediately after exactly one attempt with no
backoff. -/
theorem C2_counterexample :
    ceOutcomes 0 = FetchResult.response 500 () ∧ (0 : Nat) < MAX_RETRIES ∧
    Agent.search ceParse (ceOutcomes 1) = Except.ok [exResult] ∧
    Agent.search_with_retry ceParse ceOutcomes = ⟨[], 1, []⟩ := by
  refine ⟨rfl, by decide, rfl, rfl⟩

/-- C2 (amended): a 200 status is a success returning the parsed results; a
response with any non-200 status makes search return the empty list normally, so
search_with_retry returns immediately without a further attempt; only a transport
error (exception) counts as a failed attempt eligible for retry: if attempts 0..k
all raise transport errors and k + 1 < MAX_RETRIES, at least one further attempt
follows. -/
theorem C2_theorem (parse : α → List SearchResult) (outcomes : Nat → FetchResult α)
    (c : α) (st k : Nat) (hst : st ≠ 200) (hk : k + 1 < MAX_RETRIES)
    (hfail : ∀ i, i ≤ k → outcomes i = FetchResult.transportError) :
    Agent.search parse (FetchResult.response 200 c) = Except.ok (parse c) ∧
    Agent.search parse (FetchResult.response st c) = Except.ok [] ∧
    k + 2 ≤ (Agent.search_with_retry parse outcomes).attempts := by
  refine ⟨by simp [Agent.search], by simp [Agent.search, hst], ?_⟩
  have hprog := search_with_retry_go_attempts_progress parse outcomes (k + 1) 0 MAX_RETRIES
    (fun i hi => by simpa using hfail i (by omega)) (by omega)
  simpa [Agent.search_with_retry] using hprog

/-- Witness for C2 at st = 500, k = 0, with an always-failing transport. -/
theorem C2_witness :
    Agent.search (fun _ : Unit => ([] : List SearchResult)) (FetchResult.response 200 ()) =
      Except.ok [] ∧
    Agent.search (fun _ : Unit => ([] : List SearchResult)) (FetchResult.response 500 ()) =
      Except.ok [] ∧
    0 + 2 ≤ (Agent.search_with_retry (fun _ : Unit => ([] : List SearchResult))
      (fun _ => FetchResult.transportError)).attempts :=
  C2_theorem (fun _ : Unit => []) (fun _ => FetchResult.transportError) () 500 0
    (by decide) (by decide) (fun _ _ => rfl)

/-- C3 counterexample: for the input query list ["a", "a"] of size K = 2, run
returns a mapping with a single key, because the results dict collapses duplicate
queries; so the mapping does not have exactly K keys for every input list. -/
theorem C3_counterexample :
    ((Scraper.run (fun _ : Unit => []) (fun _ _ => FetchResult.transportError)
        BLACKLIST_DOMAINS ⟨5, 10, []⟩ ["a", "a"]).1).length = 1 ∧
    (["a", "a"] : List String).length = 2 := by
  refine ⟨rfl, rfl⟩

/-- C3 (amended): for a fresh Scraper (empty results store) and pairwise-distinct
input queries, run returns a mapping with exactly K keys, one per input query, and
every input query has a recorded entry (possibly the empty list) in the returned
mapping. -/
theorem C3_theorem (parse : α → List SearchResult) (oracle : String → Nat → FetchResult α)
    (bl : List String) (s : Scraper) (queries : List String)
    (hfresh : s.results = []) (hnd : queries.Nodup) :
    ((Scraper.run parse oracle bl s queries).1).length = queries.length ∧
    ∀ q ∈ queries, ∃ l, (q, l) ∈ (Scraper.run parse oracle bl s queries).1 := by
  have hkeys : keys ((Scraper.run parse oracle bl s queries).1) = queries := by
    simp only [Scraper.run]
    rw [keys_map_postProcess, foldl_dictSet_keys, hfresh]
    simpa [keys] using newKeys_of_nodup queries [] hnd (by simp)
  constructor
  · have hlen := congrArg List.length hkeys
    simpa [keys] using hlen
  · intro q hq
    have hqk : q ∈ keys ((Scraper.run parse oracle bl s queries).1) := by
      rw [hkeys]; exact hq
    simp only [keys, List.mem_map] at hqk
    obtain ⟨⟨a, b⟩, hp, rfl⟩ := hqk
    exact ⟨b, hp⟩

/-- Witness for C3 on a fresh Scraper with the distinct queries ["a", "b"]. -/
theorem C3_witness :
    ((Scraper.run (fun _ : Unit => []) (fun _ _ => FetchResult.transportError)
        BLACKLIST_DOMAINS ⟨5, 10, []⟩ ["a", "b"]).1).length =
      (["a", "b"] : List String).length ∧
    ∃ l, (("a" : String), l) ∈ (Scraper.run (fun _ : Unit => [])
      (fun _ _ => FetchResult.transportError) BLACKLIST_DOMAINS ⟨5, 10, []⟩ ["a", "b"]).1 :=
  ⟨(C3_theorem (fun _ : Unit => []) (fun _ _ => FetchResult.transportError) BLACKLIST_DOMAINS
      ⟨5, 10, []⟩ ["a", "b"] rfl (by decide)).1,
   (C3_theorem (fun _ : Unit => []) (fun _ _ => FetchResult.transportError) BLACKLIST_DOMAINS
      ⟨5, 10, []⟩ ["a", "b"] rfl (by decide)).2 "a" (by decide)⟩

/-- C4 counterexample: on the exit path where asyncio.CancelledError is raised
during processing of a dequeued item, Agent.work breaks out of the loop without
calling task_done at all, so mark_done is not called exactly once on every exit
path. -/
theorem C4_counterexample :
    (workIteration ProcessOutcome.cancelled).taskDoneCalls = 0 ∧
    (workIteration ProcessOutcome.cancelled).taskDoneCalls ≠ 1 := by
  refine ⟨rfl, by decide⟩

/-- C4 (amended): for every dequeued item, Agent.work calls task_done exactly once
on the normal-completion and generic-exception exit paths, and never more than
once on any path; but the mark is made from except-handlers, not from a
finally-equivalent path: on a cancellation exit during processing the loop breaks
without marking the dequeued item done. -/
theorem C4_theorem :
    ∀ o : ProcessOutcome, (workIteration o).taskDoneCalls ≤ 1 ∧
      ((workIteration o).taskDoneCalls = 1 ↔ o ≠ ProcessOutcome.cancelled) := by
  intro o
  cases o <;> simp [workIteration]

/-- C5 counterexample: running ["a"] on a fresh Scraper and then running ["b"] on
the same Scraper yields a second mapping that still contains the entry for "a"
recorded by the first run, even though "a" is not among the second run's queries;
the ResultStore is created in the constructor and outlives each run call. -/
theorem C5_counterexample :
    ("a", ([] : List SearchResult)) ∈
      (Scraper.run (fun _ : Unit => []) (fun _ _ => FetchResult.transportError)
        BLACKLIST_DOMAINS
        (Scraper.run (fun _ : Unit => []) (fun _ _ => FetchResult.transportError)
          BLACKLIST_DOMAINS ⟨5, 10, []⟩ ["a"]).2 ["b"]).1 ∧
    ("a" : String) ∉ (["b"] : List String) := by
  refine ⟨by decide, by decide⟩

/-- C5 (amended): the results dict is created per Scraper instance, not per run
call, and persists across run calls: the key list of the mapping returned by run
is the key list already in the store followed by the first occurrences of the new
queries, and the Scraper state after run retains the returned mapping, so entries
from earlier run calls on the same Scraper are carried over into later runs. -/
theorem C5_theorem (parse : α → List SearchResult) (oracle : String → Nat → FetchResult α)
    (bl : List String) (s : Scraper) (queries : List String) :
    keys ((Scraper.run parse oracle bl s queries).1) =
      keys s.results ++ newKeys (keys s.results) queries ∧
    (Scraper.run parse oracle bl s queries).2.results =
      (Scraper.run parse oracle bl s queries).1 := by
  constructor
  · simp only [Scraper.run]
    rw [keys_map_postProcess, foldl_dictSet_keys]
  · rfl

/-- C6: for every query whose fetch raises a transport error on every attempt,
search_with_retry performs exactly MAX_RETRIES = 3 attempts (never a fourth),
sleeps 2 ^ attempt time units after each failed attempt starting at attempt 0
(backoff durations 1, 2, 4), and returns the empty list without raising past the
retry boundary. -/
theorem C6_theorem (parse : α → List SearchResult) (outcomes : Nat → FetchResult α)
    (h : ∀ i, i < MAX_RETRIES → outcomes i = FetchResult.transportError) :
    Agent.search_with_retry parse outcomes = ⟨[], MAX_RETRIES, [1, 2, 4]⟩ := by
  have h0 := h 0 (by decide)
  have h1 := h 1 (by decide)
  have h2 := h 2 (by decide)
  show search_with_retry_go parse outcomes 0 MAX_RETRIES = _
  have e3 : search_with_retry_go parse outcomes 0 MAX_RETRIES =
      ⟨(search_with_retry_go parse outcomes 1 2).result,
       (search_with_retry_go parse outcomes 1 2).attempts,
       2 ^ 0 :: (search_with_retry_go parse outcomes 1 2).backoffs⟩ :=
    search_with_retry_go_fail h0 2
  have e2 : search_with_retry_go parse outcomes 1 2 =
      ⟨(search_with_retry_go parse outcomes 2 1).result,
       (search_with_retry_go parse outcomes 2 1).attempts,
       2 ^ 1 :: (search_with_retry_go parse outcomes 2 1).backoffs⟩ :=
    search_with_retry_go_fail h1 1
  have e1 : search_with_retry_go parse outcomes 2 1 =
      ⟨(search_with_retry_go parse outcomes 3 0).result,
       (search_with_retry_go parse outcomes 3 0).attempts,
       2 ^ 2 :: (search_with_retry_go parse outcomes 3 0).backoffs⟩ :=
    search_with_retry_go_fail h2 0
  have e0 : search_with_retry_go parse outcomes 3 0 = ⟨[], 3, []⟩ := rfl
  rw [e3, e2, e1, e0]
  rfl

/-- Witness for C6 with an always-failing transport. -/
theorem C6_witness :
    Agent.search_with_retry (fun _ : Unit => ([] : List SearchResult))
      (fun _ => FetchResult.transportError) = ⟨[], MAX_RETRIES, [1, 2, 4]⟩ :=
  C6_theorem (fun _ : Unit => []) (fun _ => FetchResult.transportError) (fun _ _ => rfl)

/-- C7: every result list in the mapping returned by run contains no two entries
with equal url, and the post-processing pipeline is idempotent: applying it again
to its own output, with the same blacklist and limit, yields the same output. -/
theorem C7_theorem (parse : α → List SearchResult) (oracle : String → Nat → FetchResult α)
    (bl : List String) (s : Scraper) (queries : List String) (q : String)
    (l : List SearchResult) (h : (q, l) ∈ (Scraper.run parse oracle bl s queries).1) :
    l.Pairwise (fun a b => a.url ≠ b.url) ∧
    ∀ (b : List String) (m : Nat) (x : List SearchResult),
      postProcess b m (postProcess b m x) = postProcess b m x := by
  obtain ⟨raw, rfl⟩ := run_value_eq_postProcess h
  exact ⟨postProcess_pairwise _ _ _, fun b m x => postProcess_idem b m x⟩

/-- Witness for C7 on a run whose accumulated list has a duplicate url. -/
theorem C7_witness :
    ([exResult, exResult2] : List SearchResult).Pairwise (fun a b => a.url ≠ b.url) ∧
    postProcess BLACKLIST_DOMAINS 10
        (postProcess BLACKLIST_DOMAINS 10 [exResult, exResult2, exResult]) =
      postProcess BLACKLIST_DOMAINS 10 [exResult, exResult2, exResult] :=
  ⟨(C7_theorem (fun _ : Unit => [exResult, exResult2, exResult])
      (fun _ _ => FetchResult.response 200 ()) BLACKLIST_DOMAINS ⟨5, 10, []⟩ ["w"] "w"
      [exResult, exResult2] (by decide)).1,
   (C7_theorem (fun _ : Unit => [exResult, exResult2, exResult])
      (fun _ _ => FetchResult.response 200 ()) BLACKLIST_DOMAINS ⟨5, 10, []⟩ ["w"] "w"
      [exResult, exResult2] (by decide)).2 BLACKLIST_DOMAINS 10
      [exResult, exResult2, exResult]⟩

/-- C8: no entry of any result list returned by run has a domain that is a member
of the blacklist run was configured with. -/
theorem C8_theorem (parse : α → List SearchResult) (oracle : String → Nat → FetchResult α)
    (bl : List String) (s : Scraper) (queries : List String) (q : String)
    (l : List SearchResult) (r : SearchResult)
    (hql : (q, l) ∈ (Scraper.run parse oracle bl s queries).1) (hr : r ∈ l) :
    r.domain ∉ bl := by
  obtain ⟨raw, rfl⟩ := run_value_eq_postProcess hql
  exact mem_postProcess hr

/-- Witness for C8 with the configured blacklist. -/
theorem C8_witness : exResult.domain ∉ BLACKLIST_DOMAINS :=
  C8_theorem (fun _ : Unit => [exResult]) (fun _ _ => FetchResult.response 200 ())
    BLACKLIST_DOMAINS ⟨5, 10, []⟩ ["w"] "w" [exResult] exResult (by decide) (by decide)

/-- C9: every result list returned by run has length at most the configured
max_results limit, and whenever at least m deduplicated non-blacklisted results
accumulated, the post-processed output is exactly the first m of them in arrival
order, with length exactly m. -/
theorem C9_theorem (parse : α → List SearchResult) (oracle : String → Nat → FetchResult α)
    (bl : List String) (s : Scraper) (queries : List String) (q : String)
    (l : List SearchResult) (hql : (q, l) ∈ (Scraper.run parse oracle bl s queries).1) :
    l.length ≤ s.max_results ∧
    ∀ (b : List String) (m : Nat) (x : List SearchResult),
      m ≤ (remove_duplicates (filter_results x (some b))).length →
      postProcess b m x = (remove_duplicates (filter_results x (some b))).take m ∧
        (postProcess b m x).length = m := by
  obtain ⟨raw, rfl⟩ := run_value_eq_postProcess hql
  refine ⟨postProcess_length_le _ _ _, ?_⟩
  intro b m x hm
  exact ⟨rfl, postProcess_length_eq hm⟩

/-- Witness for C9: limit 2 with three distinct accumulated results. -/
theorem C9_witness :
    ([exResult, exResult2] : List SearchResult).length ≤ 2 ∧
    (postProcess BLACKLIST_DOMAINS 2 [exResult, exResult2, exResult3] =
        (remove_duplicates
          (filter_results [exResult, exResult2, exResult3] (some BLACKLIST_DOMAINS))).take 2 ∧
      (postProcess BLACKLIST_DOMAINS 2 [exResult, exResult2, exResult3]).length = 2) :=
  ⟨(C9_theorem (fun _ : Unit => [exResult, exResult2, exResult3])
      (fun _ _ => FetchResult.response 200 ()) BLACKLIST_DOMAINS ⟨5, 2, []⟩ ["w"] "w"
      [exResult, exResult2] (by decide)).1,
   (C9_theorem (fun _ : Unit => [exResult, exResult2, exResult3])
      (fun _ _ => FetchResult.response 200 ()) BLACKLIST_DOMAINS ⟨5, 2, []⟩ ["w"] "w"
      [exResult, exResult2] (by decide)).2 BLACKLIST_DOMAINS 2
      [exResult, exResult2, exResult3] (by decide)⟩

/-- C10: filter_results returns its input list unchanged when the blacklist
argument is None or the empty list; an empty blacklist never removes any
result. -/
theorem C10_theorem (results : List SearchResult) :
    filter_results results none = results ∧ filter_results results (some []) = results :=
  ⟨rfl, rfl⟩

end MultiAgentScraper
